import Mathlib

/-!
Verification of the transaction and UDF pipeline core of a distributed
key-value database node (sources: `transaction.c`, `thr_demarshal.c`,
`udf.c`, `rw_utils.h`).  Each C function relevant to the checked claims is
shallowly embedded as an executable Lean definition; machine integers are
modelled as `Nat`/`Int` with explicit wraparound where overflow matters,
pointers as identities (`Nat`) or liveness flags, and side effects
(responses, callbacks, counter updates) as explicit event lists or state
passing.
-/

set_option maxRecDepth 4000

/-! ## UDF record operation classification (`udf.c`: `udf_getop`) -/

/-- The flag state of a `udf_record` observed by `udf_getop`:
the four `UDF_RECORD_FLAG_*` bits it tests, plus the result of
`as_bin_inuse_has(urecord->rd)` used by `udf_zero_bins_left`. -/
structure UdfRecordState where
  isSubrecord : Bool  -- UDF_RECORD_FLAG_IS_SUBRECORD
  isOpen : Bool       -- UDF_RECORD_FLAG_OPEN
  preexists : Bool    -- UDF_RECORD_FLAG_PREEXISTS
  hasUpdates : Bool   -- UDF_RECORD_FLAG_HAS_UPDATES
  binsInUse : Bool    -- as_bin_inuse_has(urecord->rd)
deriving DecidableEq, Fintype

/-- The `udf_optype` values reachable from `udf_getop` (the `LDT_*`
variants are produced only later, in `udf_finish`). -/
inductive UdfOptype where
  | UDF_OPTYPE_NONE
  | UDF_OPTYPE_READ
  | UDF_OPTYPE_WRITE
  | UDF_OPTYPE_DELETE
deriving DecidableEq

/-- `udf.c` `udf_zero_bins_left`: not a sub-record, open, and no bin in use. -/
def udf_zero_bins_left (u : UdfRecordState) : Bool :=
  !u.isSubrecord && u.isOpen && !u.binsInUse

/-- `udf.c` `udf_getop`, translated branch for branch. -/
def udf_getop (u : UdfRecordState) : UdfOptype :=
  let optype :=
    if u.hasUpdates then
      if u.isOpen then
        UdfOptype.UDF_OPTYPE_WRITE
      else
        if u.preexists then UdfOptype.UDF_OPTYPE_DELETE
        else UdfOptype.UDF_OPTYPE_NONE
    else
      if u.preexists && !u.isOpen then UdfOptype.UDF_OPTYPE_DELETE
      else UdfOptype.UDF_OPTYPE_READ
  if udf_zero_bins_left u then UdfOptype.UDF_OPTYPE_DELETE else optype

/-- The classification exactly as the specification words it: WRITE when
updates and open; DELETE when updates, closed and pre-existed; NONE when
updates, closed and did not pre-exist; DELETE when no updates, pre-existed
and closed; READ otherwise; promoted to DELETE when the non-subrecord,
open record is left with zero in-use bins. -/
def specUdfClassification (u : UdfRecordState) : UdfOptype :=
  let base :=
    if u.hasUpdates && u.isOpen then UdfOptype.UDF_OPTYPE_WRITE
    else if u.hasUpdates && !u.isOpen && u.preexists then
      UdfOptype.UDF_OPTYPE_DELETE
    else if u.hasUpdates && !u.isOpen && !u.preexists then
      UdfOptype.UDF_OPTYPE_NONE
    else if !u.hasUpdates && u.preexists && !u.isOpen then
      UdfOptype.UDF_OPTYPE_DELETE
    else UdfOptype.UDF_OPTYPE_READ
  if !u.isSubrecord && u.isOpen && !u.binsInUse then
    UdfOptype.UDF_OPTYPE_DELETE
  else base

/-- C1: for every UDF record state, `udf_getop` classifies the operation
exactly as the specification states: WRITE / DELETE / NONE / DELETE / READ
per the update, open and pre-existence flags, with promotion to DELETE
when a non-subrecord, open record is left with zero in-use bins. -/
theorem c1_udf_getop_matches_spec :
    ∀ u : UdfRecordState, udf_getop u = specUdfClassification u := by
  decide

/-! ## Transaction head transfer (`transaction.c`:
`as_transaction_init_head_from_rw`) -/

/-- The fields of `rw_request` read or written by
`as_transaction_init_head_from_rw`: the nine head fields, plus `rest`
standing for every other `rw_request` field (reservation, timing, dup-res
state, ...), which the function must leave untouched. -/
structure RwRequestRec where
  msgp : Nat                -- identity of the owned message pointer
  msg_fields : Nat
  origin : Nat
  from_flags : Nat
  from_any : Option Nat     -- from.any; `none` models NULL
  from_data_any : Nat
  keyd : Nat
  start_time : Nat
  benchmark_time : Nat
  rest : Nat                -- all remaining rw_request fields
deriving DecidableEq

/-- The `as_transaction` fields in play: the nine head fields plus
`body_rest` standing for the body fields (`rsv`, `end_time`,
`result_code`, ...), untouched by the head copy. -/
structure AsTransactionRec where
  msgp : Nat
  msg_fields : Nat
  origin : Nat
  from_flags : Nat
  from_any : Option Nat
  from_data_any : Nat
  keyd : Nat
  start_time : Nat
  benchmark_time : Nat
  body_rest : Nat
deriving DecidableEq

/-- `transaction.c` `as_transaction_init_head_from_rw`: copies the nine
head fields from `rw` into `tr`, then sets `rw->from.any = NULL`
(`rw->msgp` deliberately not cleared - the destructor frees it). -/
def as_transaction_init_head_from_rw (tr : AsTransactionRec)
    (rw : RwRequestRec) : AsTransactionRec × RwRequestRec :=
  ({ tr with
      msgp := rw.msgp
      msg_fields := rw.msg_fields
      origin := rw.origin
      from_flags := rw.from_flags
      from_any := rw.from_any
      from_data_any := rw.from_data_any
      keyd := rw.keyd
      start_time := rw.start_time
      benchmark_time := rw.benchmark_time },
   { rw with from_any := none })

/-- C9: `as_transaction_init_head_from_rw` copies exactly the head fields
(msgp, msg_fields, origin, from_flags, from, from_data, keyd, start_time,
benchmark_time) from `rw` into `tr`, then nulls `rw->from.any`; every
other field of `rw` - in particular `rw->msgp` - and every non-head field
of `tr` is unchanged. -/
theorem c9_init_head_from_rw_exact :
    ∀ (tr : AsTransactionRec) (rw : RwRequestRec),
      (as_transaction_init_head_from_rw tr rw).1.msgp = rw.msgp ∧
      (as_transaction_init_head_from_rw tr rw).1.msg_fields = rw.msg_fields ∧
      (as_transaction_init_head_from_rw tr rw).1.origin = rw.origin ∧
      (as_transaction_init_head_from_rw tr rw).1.from_flags = rw.from_flags ∧
      (as_transaction_init_head_from_rw tr rw).1.from_any = rw.from_any ∧
      (as_transaction_init_head_from_rw tr rw).1.from_data_any
        = rw.from_data_any ∧
      (as_transaction_init_head_from_rw tr rw).1.keyd = rw.keyd ∧
      (as_transaction_init_head_from_rw tr rw).1.start_time = rw.start_time ∧
      (as_transaction_init_head_from_rw tr rw).1.benchmark_time
        = rw.benchmark_time ∧
      (as_transaction_init_head_from_rw tr rw).1.body_rest = tr.body_rest ∧
      (as_transaction_init_head_from_rw tr rw).2.from_any = none ∧
      (as_transaction_init_head_from_rw tr rw).2.msgp = rw.msgp ∧
      (as_transaction_init_head_from_rw tr rw).2.msg_fields = rw.msg_fields ∧
      (as_transaction_init_head_from_rw tr rw).2.origin = rw.origin ∧
      (as_transaction_init_head_from_rw tr rw).2.from_flags = rw.from_flags ∧
      (as_transaction_init_head_from_rw tr rw).2.from_data_any
        = rw.from_data_any ∧
      (as_transaction_init_head_from_rw tr rw).2.keyd = rw.keyd ∧
      (as_transaction_init_head_from_rw tr rw).2.start_time = rw.start_time ∧
      (as_transaction_init_head_from_rw tr rw).2.benchmark_time
        = rw.benchmark_time ∧
      (as_transaction_init_head_from_rw tr rw).2.rest = rw.rest := by
  intro tr rw
  simp [as_transaction_init_head_from_rw]

/-! ## UDF response / timeout race (`udf.c`: `send_udf_response`,
`udf_timeout_cb`, `udf_repl_write_cb`, `start_udf_repl_write`) -/

/-- Modelled from the spec: the wire value of the TIMEOUT error code
(`AS_PROTO_RESULT_FAIL_TIMEOUT`, declared in a header not under src/). -/
def AS_PROTO_RESULT_FAIL_TIMEOUT : Nat := 9

/-- The transaction origins reachable in the UDF pipeline's response and
timeout paths.  `FROM_BATCH` and `FROM_NSUP` hit `cf_crash` in both
`send_udf_response` and `udf_timeout_cb` ("should be impossible"), so they
are excluded from the state space. -/
inductive UdfOrigin where
  | client | proxy | iudf
deriving DecidableEq, BEq

/-- Externally visible actions of the UDF response/timeout code. -/
inductive UdfEvent where
  | clientOpsReply                 -- as_msg_send_ops_reply on the client fd
  | clientReply (code : Nat)       -- as_msg_send_reply on the client fd
  | proxyOpsResponse               -- as_proxy_send_ops_response
  | proxyResponse (code : Nat)     -- as_proxy_send_response
  | iudfCallback (code : Nat)      -- tr->from.iudf_orig->cb(udata, code)
  | forceCloseClient               -- as_end_of_transaction_force_close
  | replicaWriteMsgs               -- send_rw_messages (repl-write fan-out)
deriving DecidableEq, BEq

/-- Modelled from the spec: a transaction's effective write-commit level
(`TRANSACTION_COMMIT_LEVEL`, defined via transaction_policy.h which is not
under src/) - per-transaction policy with per-namespace override. -/
inductive CommitLevel where
  | all | master
deriving DecidableEq, BEq

/-- The `as_transaction` state consulted by the UDF response paths:
origin, whether `from.any` is non-NULL, the result code, and the
commit level. -/
structure UdfTr where
  origin : UdfOrigin
  fromLive : Bool          -- tr.from.any ≠ NULL
  resultCode : Nat
  commitLevel : CommitLevel
deriving DecidableEq

/-- The `rw_request` state consulted by the same paths.  `dbUsed` models
`rw->response_db` being non-NULL with `used_sz != 0`. -/
structure UdfRw where
  origin : UdfOrigin
  fromLive : Bool          -- rw.from.any ≠ NULL
  commitLevel : CommitLevel
  dbUsed : Bool
  respondOnMaster : Bool   -- rw->respond_client_on_master_completion
deriving DecidableEq

/-- `udf.c` `send_udf_response(tr, db)`: the null-`from` guard no-ops with
a warning; otherwise the response is delivered per origin (ops reply when
the dyn-buf is used, plain reply otherwise; completion callback for
internal UDFs) and `tr->from.any` is set to NULL.  An internal-UDF origin
with a used response dyn-buf hits `cf_crash` ("unexpected - internal udf
has response"): the process aborts before any callback fires or
`from.any` is nulled, modelled as `none`. -/
def send_udf_response (tr : UdfTr) (dbUsed : Bool) :
    Option (UdfTr × List UdfEvent) :=
  if !tr.fromLive then
    some (tr, [])  -- cf_warning "transaction origin has null 'from'"
  else
    match tr.origin with
    | .client =>
        some ({ tr with fromLive := false },
          if dbUsed then [.clientOpsReply] else [.clientReply tr.resultCode])
    | .proxy =>
        some ({ tr with fromLive := false },
          if dbUsed then [.proxyOpsResponse]
          else [.proxyResponse tr.resultCode])
    | .iudf =>
        if dbUsed then
          none  -- cf_crash "unexpected - internal udf has response"
        else
          some ({ tr with fromLive := false },
            [.iudfCallback tr.resultCode])

/-- `transaction.c` `as_transaction_init_from_rw` restricted to the fields
of this model: the head (including `from.any`) moves from `rw` to a fresh
transaction whose result code is reset to OK, and `rw->from.any` is set to
NULL. -/
def udf_tr_from_rw (rw : UdfRw) : UdfTr × UdfRw :=
  ({ origin := rw.origin
     fromLive := rw.fromLive
     resultCode := 0
     commitLevel := rw.commitLevel },
   { rw with fromLive := false })

/-- `udf.c` `udf_repl_write_cb`: build a transaction from the rw_request
(nulling `rw->from.any`) and send the response from `rw->response_db`;
`none` propagates a `cf_crash` inside `send_udf_response`. -/
def udf_repl_write_cb (rw : UdfRw) : Option (UdfRw × List UdfEvent) :=
  let tr_rw := udf_tr_from_rw rw
  (send_udf_response tr_rw.1 tr_rw.2.dbUsed).map fun p => (tr_rw.2, p.2)

/-- `udf.c` `udf_timeout_cb`: if `rw->from.any` is already NULL the race
was lost and nothing happens; otherwise act per origin (force-close the
client connection; nothing for proxy; timeout callback for internal UDFs)
and null `rw->from.any`. -/
def udf_timeout_cb (rw : UdfRw) : UdfRw × List UdfEvent :=
  if !rw.fromLive then
    (rw, [])  -- lost race against dup-res or repl-write callback
  else
    let evs : List UdfEvent :=
      match rw.origin with
      | .client => [.forceCloseClient]
      | .proxy => []   -- proxyer handles its own timeout
      | .iudf => [.iudfCallback AS_PROTO_RESULT_FAIL_TIMEOUT]
    ({ rw with fromLive := false }, evs)

/-- C2: natural completion and timeout mutually exclude.  Completion
first: whenever `udf_repl_write_cb` returns (instead of aborting the
process, which it does for an internal-UDF origin with a used response
dyn-buf), it has delivered a response and nulled `from.any`, and the
timeout afterwards emits nothing and invokes no origin callback.  Timeout
first: it nulls `from.any`, and the completion afterwards returns with no
events at all.  Either way the combined trace is exactly the first
runner's. -/
theorem c2_completion_timeout_race (rw : UdfRw) (h : rw.fromLive = true) :
    (∀ rwA evA, udf_repl_write_cb rw = some (rwA, evA) →
      rwA.fromLive = false ∧ evA ≠ [] ∧
      (udf_timeout_cb rwA).2 = [] ∧
      (udf_timeout_cb rwA).1.fromLive = false ∧
      evA ++ (udf_timeout_cb rwA).2 = evA) ∧
    ((udf_timeout_cb rw).1.fromLive = false ∧
      udf_repl_write_cb (udf_timeout_cb rw).1
        = some ((udf_timeout_cb rw).1, [])) := by
  cases rw with
  | mk origin fromLive commitLevel dbUsed respondOnMaster =>
    subst h
    constructor
    · intro rwA evA hA
      cases origin <;> cases dbUsed <;>
        simp [udf_repl_write_cb, udf_tr_from_rw, send_udf_response] at hA <;>
        rcases hA with ⟨rfl, rfl⟩ <;>
        simp [udf_timeout_cb]
    · cases origin <;> cases dbUsed <;>
        simp [udf_timeout_cb, udf_repl_write_cb, udf_tr_from_rw,
          send_udf_response]

/-- C2 witness: concrete completion-then-timeout run on a live
client-origin rw_request. -/
theorem c2_completion_timeout_race_witness :
    (udf_timeout_cb
      ⟨UdfOrigin.client, false, CommitLevel.all, false, false⟩).2 = [] := by
  have h := (c2_completion_timeout_race
    ⟨UdfOrigin.client, true, CommitLevel.all, false, false⟩ rfl).1
    ⟨UdfOrigin.client, false, CommitLevel.all, false, false⟩
    [UdfEvent.clientReply 0] rfl
  exact h.2.2.1

/-- The configuration bit consulted by `respond_on_master_complete`
(`g_config.respond_client_on_master_completion`). -/
structure UdfConfig where
  respondClientOnMasterCompletion : Bool
deriving DecidableEq

/-- `rw_utils.h` `respond_on_master_complete`: client origin, and either
the global config flag or a MASTER commit level for this transaction. -/
def respond_on_master_complete (cfg : UdfConfig) (tr : UdfTr) : Bool :=
  tr.origin == UdfOrigin.client &&
    (cfg.respondClientOnMasterCompletion ||
      tr.commitLevel == CommitLevel.master)

/-- `udf.c` `start_udf_repl_write`; `makeMsgOk` models the outcome of
`repl_write_make_message` (whose body is outside src/).  On success: set
`rw->respond_client_on_master_completion`; if set, send the client
response immediately (this nulls `tr->from.any`); then
`repl_write_setup_rw` - modelled from the spec: moving origin ownership
from `tr` into `rw` copies the head including `from.any` and clears the
source's `from.any` - and `send_rw_messages`.  Returns (succeeded,
rw_request, transaction, events in order); `none` propagates a
`send_udf_response` crash, unreachable here because only a client-origin
transaction can have respond-on-master-complete set. -/
def start_udf_repl_write (cfg : UdfConfig) (makeMsgOk : Bool) (rw : UdfRw)
    (tr : UdfTr) : Option (Bool × UdfRw × UdfTr × List UdfEvent) :=
  if !makeMsgOk then
    some (false, rw, tr, [])
  else
    let rw1 := { rw with respondOnMaster := respond_on_master_complete cfg tr }
    match (if rw1.respondOnMaster then send_udf_response tr rw1.dbUsed
           else some (tr, [])) with
    | none => none
    | some (tr1, evs) =>
        let rw2 := { rw1 with
            origin := tr1.origin
            fromLive := tr1.fromLive
            commitLevel := tr1.commitLevel }
        let tr2 := { tr1 with fromLive := false }
        some (true, rw2, tr2, evs ++ [UdfEvent.replicaWriteMsgs])

/-- Whether an event is a response to the client connection. -/
def isClientResponse : UdfEvent → Bool
  | .clientOpsReply => true
  | .clientReply _ => true
  | _ => false

/-- C3: with respond-on-master-complete in effect, starting the
replica-write phase succeeds and emits the client response first, strictly
before the replica-write messages are sent (hence before any replica ack),
and the replica-write completion callback afterwards returns with no
events at all. -/
theorem c3_respond_on_master_complete (cfg : UdfConfig) (rw : UdfRw)
    (tr : UdfTr) (hrm : respond_on_master_complete cfg tr = true)
    (hlive : tr.fromLive = true) :
    ∃ rw2 tr2 resp, isClientResponse resp = true ∧
      start_udf_repl_write cfg true rw tr
        = some (true, rw2, tr2, [resp, UdfEvent.replicaWriteMsgs]) ∧
      udf_repl_write_cb rw2 = some (rw2, []) := by
  have horig : tr.origin = UdfOrigin.client := by
    cases h : tr.origin
    · rfl
    · rw [respond_on_master_complete, h] at hrm
      exact absurd ((Bool.and_eq_true _ _).mp hrm).1 (by decide)
    · rw [respond_on_master_complete, h] at hrm
      exact absurd ((Bool.and_eq_true _ _).mp hrm).1 (by decide)
  refine ⟨{ rw with
              respondOnMaster := true
              origin := UdfOrigin.client
              fromLive := false
              commitLevel := tr.commitLevel },
    { tr with fromLive := false },
    (if rw.dbUsed then UdfEvent.clientOpsReply
     else UdfEvent.clientReply tr.resultCode), ?_, ?_, ?_⟩
  · cases hdb : rw.dbUsed <;> simp [hdb, isClientResponse]
  · cases hdb : rw.dbUsed <;>
      simp [start_udf_repl_write, hrm, send_udf_response, hlive, horig, hdb]
  · simp [udf_repl_write_cb, udf_tr_from_rw, send_udf_response]

/-- C3 witness: concrete run with the config flag set, a live client
transaction and an empty response dyn-buf. -/
theorem c3_respond_on_master_complete_witness :
    (start_udf_repl_write ⟨true⟩ true
      ⟨UdfOrigin.client, true, CommitLevel.all, false, false⟩
      ⟨UdfOrigin.client, true, 0, CommitLevel.all⟩).isSome = true := by
  obtain ⟨rw2, tr2, resp, -, h2, -⟩ := c3_respond_on_master_complete ⟨true⟩
    ⟨UdfOrigin.client, true, CommitLevel.all, false, false⟩
    ⟨UdfOrigin.client, true, 0, CommitLevel.all⟩ rfl rfl
  rw [h2]
  rfl

/-! ## Per-origin error emitters (`transaction.c`: `as_transaction_error`,
`as_multi_rec_transaction_error`) -/

/-- Modelled from the spec: the wire value of the UNKNOWN error code
(`AS_PROTO_RESULT_FAIL_UNKNOWN`; "received 0 gets coerced to UNKNOWN"). -/
def AS_PROTO_RESULT_FAIL_UNKNOWN : Nat := 1

/-- All five transaction origins, as dispatched on by the error emitters. -/
inductive TxOrigin where
  | FROM_CLIENT | FROM_PROXY | FROM_BATCH | FROM_IUDF | FROM_NSUP
deriving DecidableEq

/-- The transaction state the error emitters consult: the origin and
whether `from` is live (`from.any != NULL`; for proxy origin,
`from.proxy_node != 0`). -/
structure ErrTx where
  origin : TxOrigin
  fromLive : Bool
deriving DecidableEq

/-- The error and timeout counters touched by `UPDATE_ERROR_STATS` and by
`as_multi_rec_transaction_error` - per-namespace tsvc timeout/error pairs
for client, batch-sub and udf-sub, and the global per-origin error
counters used when no namespace is known. -/
structure TxCounters where
  nsClientTimeout : Nat     -- ns->n_client_tsvc_timeout
  nsClientError : Nat       -- ns->n_client_tsvc_error
  gClientError : Nat        -- g_stats.n_tsvc_client_error
  nsBatchSubTimeout : Nat   -- ns->n_batch_sub_tsvc_timeout
  nsBatchSubError : Nat     -- ns->n_batch_sub_tsvc_error
  gBatchSubError : Nat      -- g_stats.n_tsvc_batch_sub_error
  nsUdfSubTimeout : Nat     -- ns->n_udf_sub_tsvc_timeout
  nsUdfSubError : Nat       -- ns->n_udf_sub_tsvc_error
  gUdfSubError : Nat        -- g_stats.n_tsvc_udf_sub_error
deriving DecidableEq

/-- Responses/callbacks emitted by the error emitters. -/
inductive TxErrEvent where
  | clientReply (code : Nat)     -- as_msg_send_reply
  | proxyResponse (code : Nat)   -- as_proxy_send_response
  | batchAddError (code : Nat)   -- as_batch_add_error
  | iudfCallback (code : Nat)    -- tr->from.iudf_orig->cb
deriving DecidableEq

/-- The result code carried by an error event. -/
def txErrEventCode : TxErrEvent → Nat
  | .clientReply c => c
  | .proxyResponse c => c
  | .batchAddError c => c
  | .iudfCallback c => c

/-- `transaction.c` macro `UPDATE_ERROR_STATS(client)`. -/
def update_error_stats_client (hasNs : Bool) (ec : Nat) (c : TxCounters) :
    TxCounters :=
  if hasNs then
    if ec = AS_PROTO_RESULT_FAIL_TIMEOUT then
      { c with nsClientTimeout := c.nsClientTimeout + 1 }
    else { c with nsClientError := c.nsClientError + 1 }
  else { c with gClientError := c.gClientError + 1 }

/-- `transaction.c` macro `UPDATE_ERROR_STATS(batch_sub)`. -/
def update_error_stats_batch_sub (hasNs : Bool) (ec : Nat) (c : TxCounters) :
    TxCounters :=
  if hasNs then
    if ec = AS_PROTO_RESULT_FAIL_TIMEOUT then
      { c with nsBatchSubTimeout := c.nsBatchSubTimeout + 1 }
    else { c with nsBatchSubError := c.nsBatchSubError + 1 }
  else { c with gBatchSubError := c.gBatchSubError + 1 }

/-- `transaction.c` macro `UPDATE_ERROR_STATS(udf_sub)`. -/
def update_error_stats_udf_sub (hasNs : Bool) (ec : Nat) (c : TxCounters) :
    TxCounters :=
  if hasNs then
    if ec = AS_PROTO_RESULT_FAIL_TIMEOUT then
      { c with nsUdfSubTimeout := c.nsUdfSubTimeout + 1 }
    else { c with nsUdfSubError := c.nsUdfSubError + 1 }
  else { c with gUdfSubError := c.gUdfSubError + 1 }

/-- `transaction.c` `as_transaction_error(tr, ns, error_code)`: error code
0 is coerced to UNKNOWN (1) with a warning, then the switch on origin
delivers the response (guarded by the null-`from` checks) and updates the
stats; `FROM_NSUP` does nothing at all; an unknown origin would
`cf_crash` (not representable here since `TxOrigin` is the closed
enumeration). -/
def as_transaction_error (tr : ErrTx) (hasNs : Bool) (error_code : Nat)
    (c : TxCounters) : List TxErrEvent × TxCounters :=
  let ec :=
    if error_code = 0 then AS_PROTO_RESULT_FAIL_UNKNOWN else error_code
  match tr.origin with
  | .FROM_CLIENT =>
      ((if tr.fromLive then [.clientReply ec] else []),
        update_error_stats_client hasNs ec c)
  | .FROM_PROXY =>
      ((if tr.fromLive then [.proxyResponse ec] else []), c)
  | .FROM_BATCH =>
      ((if tr.fromLive then [.batchAddError ec] else []),
        update_error_stats_batch_sub hasNs ec c)
  | .FROM_IUDF =>
      ((if tr.fromLive then [.iudfCallback ec] else []),
        update_error_stats_udf_sub hasNs ec c)
  | .FROM_NSUP => ([], c)

/-- `transaction.c` `as_multi_rec_transaction_error`: same coercion; only
client origin is served (reply plus global client error counter); every
other origin hits `cf_crash`, modelled as `none`. -/
def as_multi_rec_transaction_error (tr : ErrTx) (error_code : Nat)
    (c : TxCounters) : Option (List TxErrEvent × TxCounters) :=
  let ec :=
    if error_code = 0 then AS_PROTO_RESULT_FAIL_UNKNOWN else error_code
  match tr.origin with
  | .FROM_CLIENT =>
      some ((if tr.fromLive then [.clientReply ec] else []),
        { c with gClientError := c.gClientError + 1 })
  | _ => none

/-- C7: in both error emitters, every emitted response or callback carries
the coerced code - `error_code` itself when non-zero, UNKNOWN (1) when
zero - and in particular never result code 0, for every origin. -/
theorem c7_error_code_zero_coerced :
    ∀ (tr : ErrTx) (hasNs : Bool) (ec : Nat) (c : TxCounters),
      ((as_transaction_error tr hasNs ec c).1.all fun e =>
        txErrEventCode e == (if ec = 0 then 1 else ec) &&
          !(txErrEventCode e == 0)) = true ∧
      (((as_multi_rec_transaction_error tr ec c).map fun p =>
        p.1.all fun e =>
          txErrEventCode e == (if ec = 0 then 1 else ec) &&
            !(txErrEventCode e == 0)).getD true) = true := by
  intro tr hasNs ec c
  cases tr with
  | mk origin fromLive =>
    cases origin <;> cases fromLive <;>
      by_cases h : ec = 0 <;>
      simp [as_transaction_error, as_multi_rec_transaction_error, h,
        txErrEventCode, AS_PROTO_RESULT_FAIL_UNKNOWN, Nat.pos_of_ne_zero]

/-- C10: for an internal-nsup origin, `as_transaction_error` is a complete
no-op - no response events and unchanged counters - for every error code
and `from` state. -/
theorem c10_nsup_error_noop :
    ∀ (fromLive hasNs : Bool) (ec : Nat) (c : TxCounters),
      as_transaction_error ⟨TxOrigin.FROM_NSUP, fromLive⟩ hasNs ec c
        = ([], c) := by
  intro fromLive hasNs ec c
  rfl

/-! ## File handle release (`transaction.c`: `as_release_file_handle`) -/

/-- Modelled from the spec: the known proto version (wire `version` = 2;
`PROTO_VERSION` is declared in proto.h, not under src/). -/
def PROTO_VERSION : Nat := 2

/-- Modelled from the spec: frame types are info=1, security=2, data=3,
data-compressed=4, so the first invalid type value is 5
(`PROTO_TYPE_MAX`, declared in proto.h, not under src/). -/
def PROTO_TYPE_MAX : Nat := 5

/-- The header fields of a partially received proto buffer that
`as_release_file_handle` sanity-checks before freeing it. -/
structure ProtoBufHead where
  version : Nat
  ptype : Nat
deriving DecidableEq

/-- An `as_file_handle` as seen by `as_release_file_handle`: the reference
count, the socket, the `FH_INFO_DONOT_REAP` bit, the partial proto buffer
(`none` models NULL, `some p` a present buffer with header `p`), the
security filter, and whether the handle memory itself was freed. -/
structure FileHandleRec where
  refCount : Int
  sockOpen : Bool
  doNotReap : Bool
  proto : Option ProtoBufHead
  securityFilter : Bool
  freed : Bool
deriving DecidableEq

/-- `transaction.c` `as_release_file_handle`: `cf_rc_release` decrements
the count; a positive remainder returns immediately, a negative one warns
and returns; at exactly zero the socket is closed, the do-not-reap bit
cleared, the partial proto buffer freed only if its header passes the
corruption check (else warned about and left allocated), the security
filter destroyed if present, the handle freed, and the
`proto_connections_closed` statistic incremented.  Returns the handle
state and the updated statistic. -/
def as_release_file_handle (h : FileHandleRec) (closedStat : Nat) :
    FileHandleRec × Nat :=
  let rc := h.refCount - 1
  let h1 := { h with refCount := rc }
  if 0 < rc then
    (h1, closedStat)
  else if rc < 0 then
    (h1, closedStat)  -- cf_warning "negative ref-count"
  else
    let h2 := { h1 with sockOpen := false, doNotReap := false }
    let h3 :=
      match h2.proto with
      | some p =>
          if p.version ≠ PROTO_VERSION ∨ PROTO_TYPE_MAX ≤ p.ptype then
            h2  -- cf_warning "bad proto buf, corruption"; buffer not freed
          else { h2 with proto := none }
      | none => h2
    let h4 :=
      if h3.securityFilter then { h3 with securityFilter := false } else h3
    ({ h4 with freed := true }, closedStat + 1)

/-- C4 counterexample: a handle whose last release is applied while it
holds a partial proto buffer with a corrupt header (version 0, type 3)
does NOT free the buffer, contradicting the claim that the last release
always frees the partial-frame buffer when present. -/
theorem c4_release_counterexample :
    ¬ ((as_release_file_handle
        ⟨1, true, false, some ⟨0, 3⟩, true, false⟩ 0).1.proto = none) := by
  decide

/-- C4 amended: releasing a reference closes the socket, frees the
security filter if present, frees the partial-frame buffer if present and
well-formed (known proto version, type below the maximum) - a present but
corrupt buffer is left unfreed with a warning - and increments the
connections-closed statistic, exactly when the reference count transitions
from 1 to 0; a release that leaves a positive or negative count changes
nothing but the count and increments no statistic. -/
theorem c4_release_amended :
    ∀ (h : FileHandleRec) (closedStat : Nat),
      (h.refCount = 1 →
        (as_release_file_handle h closedStat).1.sockOpen = false ∧
        (as_release_file_handle h closedStat).1.doNotReap = false ∧
        (as_release_file_handle h closedStat).1.securityFilter = false ∧
        (as_release_file_handle h closedStat).1.freed = true ∧
        (as_release_file_handle h closedStat).1.proto
          = (match h.proto with
             | some p =>
                 if p.version = PROTO_VERSION ∧ p.ptype < PROTO_TYPE_MAX then
                   none
                 else some p
             | none => none) ∧
        (as_release_file_handle h closedStat).2 = closedStat + 1) ∧
      (1 < h.refCount →
        as_release_file_handle h closedStat
          = ({ h with refCount := h.refCount - 1 }, closedStat)) ∧
      (h.refCount < 1 →
        as_release_file_handle h closedStat
          = ({ h with refCount := h.refCount - 1 }, closedStat)) := by
  intro h closedStat
  refine ⟨?_, ?_, ?_⟩
  · intro h1
    have hrc : h.refCount - 1 = 0 := by omega
    cases h with
    | mk refCount sockOpen doNotReap proto securityFilter freed =>
      simp only at hrc
      cases proto with
      | none =>
          cases securityFilter <;> simp [as_release_file_handle, hrc]
      | some p =>
          by_cases hv : p.version = PROTO_VERSION
          · by_cases ht : p.ptype < PROTO_TYPE_MAX
            · cases securityFilter <;>
                simp [as_release_file_handle, hrc, hv, ht, not_le.mpr ht]
            · cases securityFilter <;>
                simp [as_release_file_handle, hrc, hv, ht, not_lt.mp ht]
          · cases securityFilter <;>
              simp [as_release_file_handle, hrc, hv]
  · intro h1
    have : 0 < h.refCount - 1 := by omega
    simp [as_release_file_handle, this]
  · intro h1
    have h2 : ¬ 0 < h.refCount - 1 := by omega
    have h3 : h.refCount - 1 < 0 := by omega
    simp [as_release_file_handle, h2, h3]

/-- C4 witness: last release of a handle holding a well-formed partial
buffer and a security filter frees everything and bumps the statistic. -/
theorem c4_release_amended_witness :
    (as_release_file_handle
      ⟨1, true, true, some ⟨2, 3⟩, true, false⟩ 5).1.proto = none ∧
    (as_release_file_handle
      ⟨1, true, true, some ⟨2, 3⟩, true, false⟩ 5).2 = 6 := by
  have h := (c4_release_amended ⟨1, true, true, some ⟨2, 3⟩, true, false⟩ 5).1
    (by decide)
  exact ⟨by simpa using h.2.2.2.2.1, h.2.2.2.2.2⟩

/-! ## Frame header validation (`thr_demarshal.c`: `thr_demarshal`,
header-read step) -/

/-- Modelled from the spec: the security frame type (type 2;
`PROTO_TYPE_SECURITY`, declared in proto.h, not under src/). -/
def PROTO_TYPE_SECURITY : Nat := 2

/-- Modelled from the spec: the maximum declared frame body size
(`PROTO_SIZE_MAX`, declared in proto.h, not under src/; the spec's
boundary scenario treats 10 MiB + 1 as over the cap). -/
def PROTO_SIZE_MAX : Nat := 10 * 1024 * 1024

/-- What the reactor does with a freshly read frame header. -/
inductive HeaderVerdict where
  | proceed (bodySz : Nat)  -- allocate body buffer, set proto_unread := sz
  | rejectClose             -- goto NextEvent_FD_Cleanup: deregister, reap, close
deriving DecidableEq

/-- `thr_demarshal.c` header-validation step of `thr_demarshal`: the
version must be `PROTO_VERSION`, or 0 together with the security type
(backward compatibility); then, after byte-swapping, the declared size
must not exceed `PROTO_SIZE_MAX`.  Either failure jumps to
`NextEvent_FD_Cleanup`, which closes and reaps the connection.  `sz` is
the host-order declared body size. -/
def thr_demarshal_header_check (version ptype sz : Nat) : HeaderVerdict :=
  if version ≠ PROTO_VERSION ∧
      ¬ (version = 0 ∧ ptype = PROTO_TYPE_SECURITY) then
    .rejectClose
  else if PROTO_SIZE_MAX < sz then
    .rejectClose
  else
    .proceed sz

/-- C6: a frame header is accepted, proceeding to read `sz` body bytes,
exactly when the version is the known value 2, or the version is 0 with
the security type, and the declared size is at most `PROTO_SIZE_MAX`;
every other header is rejected with connection cleanup and close. -/
theorem c6_header_check_iff :
    ∀ version ptype sz : Nat,
      (thr_demarshal_header_check version ptype sz = .proceed sz ↔
        ((version = 2 ∨ (version = 0 ∧ ptype = PROTO_TYPE_SECURITY)) ∧
          sz ≤ PROTO_SIZE_MAX)) ∧
      (thr_demarshal_header_check version ptype sz = .rejectClose ↔
        ¬ ((version = 2 ∨ (version = 0 ∧ ptype = PROTO_TYPE_SECURITY)) ∧
          sz ≤ PROTO_SIZE_MAX)) := by
  intro version ptype sz
  unfold thr_demarshal_header_check
  split_ifs with hv hs
  · constructor
    · constructor
      · intro h; simp at h
      · intro h
        exfalso
        rcases h.1 with h2 | h0
        · exact hv.1 (by simp [PROTO_VERSION, h2])
        · exact hv.2 h0
    · constructor
      · intro _ hcon
        rcases hcon.1 with h2 | h0
        · exact hv.1 (by simp [PROTO_VERSION, h2])
        · exact hv.2 h0
      · intro _; rfl
  · constructor
    · constructor
      · intro h; simp at h
      · intro h; exact absurd h.2 (by omega)
    · constructor
      · intro _ hcon
        exact absurd hcon.2 (by omega)
      · intro _; rfl
  · have hver : version = 2 ∨ (version = 0 ∧ ptype = PROTO_TYPE_SECURITY) := by
      by_cases h2 : version = PROTO_VERSION
      · exact Or.inl (by simpa [PROTO_VERSION] using h2)
      · right
        by_contra h0
        exact hv ⟨h2, h0⟩
    constructor
    · constructor
      · intro _; exact ⟨hver, by omega⟩
      · intro _; rfl
    · constructor
      · intro h; simp at h
      · intro h; exact absurd ⟨hver, by omega⟩ h

/-- C6 witness: version 2 within the size cap is accepted; version 0 with
a non-security type is rejected. -/
theorem c6_header_check_witness :
    thr_demarshal_header_check 2 3 100 = .proceed 100 ∧
    thr_demarshal_header_check 0 3 100 = .rejectClose := by
  refine ⟨(c6_header_check_iff 2 3 100).1.mpr (by decide), ?_⟩
  exact (c6_header_check_iff 0 3 100).2.mpr (by decide)

/-! ## Accept-time connection cap (`thr_demarshal.c`: `thr_demarshal`,
accept path) -/

/-- Outcome of accepting one new connection. -/
inductive AcceptOutcome where
  | droppedByCap   -- cf_socket_shutdown + cf_socket_close, never registered
  | droppedNoSlot  -- no free slot in the file-handle table; shut and closed
  | registered     -- added to the table and to a demarshal thread's epoll
deriving DecidableEq

/-- `thr_demarshal.c` accept path of `thr_demarshal`, from a successful
`cf_socket_accept` on: `isXdrSock` tells whether the listening socket is
the dedicated XDR listener; `opened`/`closed` are the uint64 statistics
`proto_connections_opened/closed` (taken modulo 2^64) whose difference is
truncated to `uint32_t conns_open`; `protoFdMax` is
`g_config.n_proto_fd_max`; `slotFree` models `cf_queue_pop(g_freeslot)`
succeeding.  Returns the outcome and the updated `opened` statistic
(incremented only on registration). -/
def thr_demarshal_accept (isXdrSock : Bool) (opened closed : Nat)
    (protoFdMax : Nat) (slotFree : Bool) : AcceptOutcome × Nat :=
  let conns_open :=
    ((opened % 2 ^ 64 + 2 ^ 64 - closed % 2 ^ 64) % 2 ^ 64) % 2 ^ 32
  if !isXdrSock && decide (protoFdMax < conns_open) then
    (.droppedByCap, opened)
  else if !slotFree then
    (.droppedNoSlot, opened)
  else
    (.registered, opened + 1)

/-- C8: under the tracked count `opened - closed` (well-defined when
`closed ≤ opened` and the difference fits `uint32`), a non-XDR accept is
dropped by the cap - shut down, closed, never registered, `opened`
statistic untouched - exactly when the count exceeds `n_proto_fd_max`;
an accept on the XDR listener is never dropped by the cap. -/
theorem c8_accept_cap (isXdrSock : Bool) (opened closed protoFdMax : Nat)
    (slotFree : Bool) (hle : closed ≤ opened)
    (hfit : opened - closed < 2 ^ 32) (hop : opened < 2 ^ 64) :
    (isXdrSock = false →
      ((thr_demarshal_accept isXdrSock opened closed protoFdMax slotFree).1
          = .droppedByCap ↔ protoFdMax < opened - closed)) ∧
    (isXdrSock = false → protoFdMax < opened - closed →
      (thr_demarshal_accept isXdrSock opened closed protoFdMax slotFree).2
        = opened) ∧
    (isXdrSock = true →
      (thr_demarshal_accept isXdrSock opened closed protoFdMax slotFree).1
        ≠ .droppedByCap) := by
  have hcl : closed < 2 ^ 64 := lt_of_le_of_lt hle hop
  have hconn :
      ((opened % 2 ^ 64 + 2 ^ 64 - closed % 2 ^ 64) % 2 ^ 64) % 2 ^ 32
        = opened - closed := by
    omega
  refine ⟨?_, ?_, ?_⟩
  · intro hx
    subst hx
    unfold thr_demarshal_accept
    rw [hconn]
    by_cases hcap : protoFdMax < opened - closed
    · simp [hcap]
    · cases slotFree <;> simp [hcap]
  · intro hx hcap
    subst hx
    unfold thr_demarshal_accept
    rw [hconn]
    simp [hcap]
  · intro hx
    subst hx
    unfold thr_demarshal_accept
    cases slotFree <;> simp

/-- C8 witness: with 100 opened, 0 closed and a cap of 10, a non-XDR
accept is dropped by the cap while an XDR accept is not. -/
theorem c8_accept_cap_witness :
    (thr_demarshal_accept false 100 0 10 true).1 = .droppedByCap ∧
    (thr_demarshal_accept true 100 0 10 true).1 ≠ .droppedByCap := by
  constructor
  · exact ((c8_accept_cap false 100 0 10 true (by decide) (by decide)
      (by norm_num)).1 rfl).mpr (by decide)
  · exact (c8_accept_cap true 100 0 10 true (by decide) (by decide)
      (by norm_num)).2.2 rfl

/-! ## Data-message parse (`transaction.c`:
`as_transaction_demarshal_prepare`)

The message body is modelled as its byte list (`proto.sz` bytes starting
at the `as_msg` sub-header).  Multi-byte values are big-endian on the
wire; `as_msg_swap_*` swaps them in place, so the model reads big-endian
directly.  The `as_msg` sub-header is 22 bytes: `n_fields` at offset 18,
`n_ops` at offset 20, `data` at offset 22.  `sizeof(as_msg_field)` is 5
(`field_sz(4)|type(1)`), `sizeof(as_msg_op)` is 8
(`op_sz(4)|op|particle_type|version|name_sz`), with `name_sz` at offset 7
of the op.  The `tr->msg_fields` bit recording (which never affects the
return value) is not modelled. -/

/-- Byte at offset `i` of the body (reads beyond the end never occur on
the paths proved about; `getD` defaults them to 0). -/
def byteAt (body : List Nat) (i : Nat) : Nat :=
  body.getD i 0

/-- Big-endian 16-bit read at offset `i`. -/
def readBE2 (body : List Nat) (i : Nat) : Nat :=
  byteAt body i * 256 + byteAt body (i + 1)

/-- Big-endian 32-bit read at offset `i`. -/
def readBE4 (body : List Nat) (i : Nat) : Nat :=
  ((byteAt body i * 256 + byteAt body (i + 1)) * 256 + byteAt body (i + 2))
    * 256 + byteAt body (i + 3)

/-- The field loop of `as_transaction_demarshal_prepare`: for each of the
remaining fields, fail if the 5-byte `as_msg_field` header overruns the
end; fail if `as_msg_field_skip` returns NULL (declared `field_sz` of 0,
which cannot even hold the type byte); fail if the declared extent
overruns the end; else advance by `4 + field_sz`.  Returns the position
after the last field. -/
def as_msg_skip_fields (body : List Nat) : Nat → Nat → Option Nat
  | pos, 0 => some pos
  | pos, n + 1 =>
    if body.length < pos + 5 then none           -- incomplete as_msg_field
    else if readBE4 body pos = 0 then none       -- bad as_msg_field
    else if body.length < pos + 4 + readBE4 body pos then none
       -- incomplete as_msg_field value
    else as_msg_skip_fields body (pos + 4 + readBE4 body pos) n

/-- The op loop of `as_transaction_demarshal_prepare`: for each remaining
op, fail if the 8-byte `as_msg_op` header overruns the end; fail if
`as_msg_op_skip` returns NULL (declared `op_sz` smaller than
`name_sz + 4`, the bytes that always follow `op_sz`); fail if the declared
extent overruns the end; else advance by `4 + op_sz`. -/
def as_msg_skip_ops (body : List Nat) : Nat → Nat → Option Nat
  | pos, 0 => some pos
  | pos, n + 1 =>
    if body.length < pos + 8 then none           -- incomplete as_msg_op
    else if readBE4 body pos < byteAt body (pos + 7) + 4 then none
       -- bad as_msg_op
    else if body.length < pos + 4 + readBE4 body pos then none
       -- incomplete as_msg_op data
    else as_msg_skip_ops body (pos + 4 + readBE4 body pos) n

/-- `transaction.c` `as_transaction_demarshal_prepare`: fail if the body
is smaller than the 22-byte `as_msg`; then walk `n_fields` fields and
`n_ops` ops; extra bytes after the last op are deliberately tolerated
(legacy-client compatibility; the check is commented out in the source). -/
def as_transaction_demarshal_prepare (body : List Nat) : Bool :=
  if body.length < 22 then false
  else
    match as_msg_skip_fields body 22 (readBE2 body 18) with
    | none => false
    | some pos => (as_msg_skip_ops body pos (readBE2 body 20)).isSome

/-- Generic TLV walker: repeatedly apply `step` from `pos`, `n` times. -/
def chainWalk (step : Nat → Option Nat) : Nat → Nat → Option Nat
  | pos, 0 => some pos
  | pos, n + 1 =>
    match step pos with
    | none => none
    | some p => chainWalk step p n

/-- Position reached after the first `k` applications of `step`. -/
def chainEnd (step : Nat → Option Nat) (pos : Nat) : Nat → Option Nat
  | 0 => some pos
  | k + 1 =>
    match chainEnd step pos k with
    | none => none
    | some p => step p

/-- The claim's field step: a field fails only when its 5-byte header or
its declared extent runs past the end of the body. -/
def claimFieldStep (body : List Nat) (p : Nat) : Option Nat :=
  if body.length < p + 5 then none
  else if body.length < p + 4 + readBE4 body p then none
  else some (p + 4 + readBE4 body p)

/-- The claim's op step: an op fails only when its 8-byte header or its
declared extent runs past the end of the body. -/
def claimOpStep (body : List Nat) (p : Nat) : Option Nat :=
  if body.length < p + 8 then none
  else if body.length < p + 4 + readBE4 body p then none
  else some (p + 4 + readBE4 body p)

/-- The parse-success predicate exactly as the claim words it: the parse
fails exactly when the body is smaller than the fixed sub-header or some
field or op (its header or its declared length) extends past the end of
the body - so trailing bytes and field types are irrelevant. -/
def claimDemarshalParses (body : List Nat) : Bool :=
  if body.length < 22 then false
  else
    match chainWalk (claimFieldStep body) 22 (readBE2 body 18) with
    | none => false
    | some pos => (chainWalk (claimOpStep body) pos (readBE2 body 20)).isSome

/-- A 27-byte body: the 22-byte sub-header declaring one field and no
ops, followed by a field with declared `field_sz` 0 and one spare byte.
All of it lies within bounds, yet the parse fails (`as_msg_field_skip`
returns NULL on a zero-size field). -/
def c5Body : List Nat :=
  [22, 0, 0, 0, 0, 0, 0, 0, 0, 0, 0, 0, 0, 0, 0, 0, 0, 0, 0, 1, 0, 0,
   0, 0, 0, 0, 1]

/-- C5 counterexample: on `c5Body` the real parse fails although no field
or op extends past the end of the body, refuting the claimed "fails
exactly when" characterization. -/
theorem c5_demarshal_counterexample :
    ¬ (as_transaction_demarshal_prepare c5Body
        = claimDemarshalParses c5Body) := by
  decide

/-- Peeling a `chainEnd` from the front: the position after `k + 1` steps
is one `step` from `pos` followed by `k` steps. -/
theorem chainEnd_succ_front (step : Nat → Option Nat) (k : Nat) :
    ∀ pos, chainEnd step pos (k + 1)
      = (step pos).bind fun p1 => chainEnd step p1 k := by
  induction k with
  | zero =>
    intro pos
    cases h : step pos <;> simp [chainEnd, h]
  | succ k ih =>
    intro pos
    have hdef : chainEnd step pos (k + 1 + 1)
        = match chainEnd step pos (k + 1) with
          | none => none
          | some p => step p := rfl
    rw [hdef, ih pos]
    cases h : step pos with
    | none => simp
    | some p1 =>
      simp only [Option.some_bind]
      rfl

/-- The walker and the position function agree. -/
theorem chainWalk_eq_chainEnd (step : Nat → Option Nat) (n : Nat) :
    ∀ pos, chainWalk step pos n = chainEnd step pos n := by
  induction n with
  | zero => intro pos; rfl
  | succ n ih =>
    intro pos
    rw [chainEnd_succ_front]
    show (match step pos with
          | none => none
          | some p => chainWalk step p n)
        = (step pos).bind fun p1 => chainEnd step p1 n
    cases h : step pos with
    | none => simp
    | some p1 => simp [ih p1]

/-- Restricting a walker by a per-position side condition `C`: the
restricted walk reaches `q` exactly when the unrestricted walk does and
`C` holds at every intermediate position. -/
theorem chainWalk_restrict (g : Nat → Option Nat) (C : Nat → Prop)
    [DecidablePred C] :
    ∀ (n : Nat) (pos q : Nat),
      chainWalk (fun p => if C p then g p else none) pos n = some q ↔
        (chainWalk g pos n = some q ∧
          ∀ k, k < n → ∀ p, chainEnd g pos k = some p → C p) := by
  intro n
  induction n with
  | zero =>
    intro pos q
    constructor
    · intro h
      exact ⟨h, fun k hk => absurd hk (Nat.not_lt_zero k)⟩
    · intro h
      exact h.1
  | succ n ih =>
    intro pos q
    have hLdef : chainWalk (fun p => if C p then g p else none) pos (n + 1)
        = match (if C pos then g pos else none) with
          | none => none
          | some p => chainWalk (fun p => if C p then g p else none) p n :=
      rfl
    have hRdef : chainWalk g pos (n + 1)
        = match g pos with
          | none => none
          | some p => chainWalk g p n := rfl
    by_cases hC : C pos
    case neg =>
      constructor
      · intro h
        rw [hLdef] at h
        simp [hC] at h
      · rintro ⟨-, h2⟩
        exact absurd (h2 0 (Nat.succ_pos n) pos rfl) hC
    case pos =>
      cases hg : g pos with
      | none =>
        constructor
        · intro h
          rw [hLdef] at h
          simp [hC, hg] at h
        · rintro ⟨h1, -⟩
          rw [hRdef] at h1
          simp [hg] at h1
      | some p1 =>
        have hL : chainWalk (fun p => if C p then g p else none) pos (n + 1)
            = chainWalk (fun p => if C p then g p else none) p1 n := by
          rw [hLdef]
          simp [hC, hg]
        have hR : chainWalk g pos (n + 1) = chainWalk g p1 n := by
          rw [hRdef]
          simp [hg]
        have hshift :
            (∀ k, k < n + 1 → ∀ p, chainEnd g pos k = some p → C p)
              ↔ ∀ k, k < n → ∀ p, chainEnd g p1 k = some p → C p := by
          constructor
          · intro h k hk p hp
            refine h (k + 1) (by omega) p ?_
            rw [chainEnd_succ_front, hg]
            simpa using hp
          · intro h k hk p hp
            cases k with
            | zero =>
              have hppos : p = pos := by
                simpa [chainEnd] using hp.symm
              rw [hppos]
              exact hC
            | succ k =>
              rw [chainEnd_succ_front, hg] at hp
              exact h k (by omega) p (by simpa using hp)
        rw [hL, hR, hshift, ih p1 q]

/-- The source field loop is the claim's bounds-only field walk restricted
by the non-zero-size side condition that `as_msg_field_skip` enforces. -/
theorem as_msg_skip_fields_eq_restricted (body : List Nat) :
    ∀ (n pos : Nat),
      as_msg_skip_fields body pos n
        = chainWalk
            (fun p => if readBE4 body p ≠ 0 then claimFieldStep body p
                      else none) pos n := by
  intro n
  induction n with
  | zero => intro pos; rfl
  | succ n ih =>
    intro pos
    by_cases h1 : body.length < pos + 5
    · simp [as_msg_skip_fields, chainWalk, claimFieldStep, h1]
    · by_cases h2 : readBE4 body pos = 0
      · simp [as_msg_skip_fields, chainWalk, claimFieldStep, h1, h2]
      · by_cases h3 : body.length < pos + 4 + readBE4 body pos
        · simp [as_msg_skip_fields, chainWalk, claimFieldStep, h1, h2, h3]
        · simp [as_msg_skip_fields, chainWalk, claimFieldStep, h1, h2, h3, ih]

/-- The source op loop is the claim's bounds-only op walk restricted by
the `name_sz + 4 <= op_sz` side condition that `as_msg_op_skip`
enforces. -/
theorem as_msg_skip_ops_eq_restricted (body : List Nat) :
    ∀ (n pos : Nat),
      as_msg_skip_ops body pos n
        = chainWalk
            (fun p => if byteAt body (p + 7) + 4 ≤ readBE4 body p then
                        claimOpStep body p
                      else none) pos n := by
  intro n
  induction n with
  | zero => intro pos; rfl
  | succ n ih =>
    intro pos
    by_cases h1 : body.length < pos + 8
    · simp [as_msg_skip_ops, chainWalk, claimOpStep, h1]
    · by_cases h2 : readBE4 body pos < byteAt body (pos + 7) + 4
      · simp [as_msg_skip_ops, chainWalk, claimOpStep, h1, h2,
          Nat.not_le.mpr h2]
      · by_cases h3 : body.length < pos + 4 + readBE4 body pos
        · simp [as_msg_skip_ops, chainWalk, claimOpStep, h1, h2, h3,
            Nat.not_lt.mp h2]
        · simp [as_msg_skip_ops, chainWalk, claimOpStep, h1, h2, h3, ih,
            Nat.not_lt.mp h2]

/-- The source field loop reaches `q` exactly when the claim's bounds-only
field walk does and no walked field declares size zero. -/
theorem as_msg_skip_fields_iff (body : List Nat) (n pos q : Nat) :
    as_msg_skip_fields body pos n = some q ↔
      (chainWalk (claimFieldStep body) pos n = some q ∧
        ∀ k, k < n → ∀ p, chainEnd (claimFieldStep body) pos k = some p →
          readBE4 body p ≠ 0) := by
  rw [as_msg_skip_fields_eq_restricted,
    chainWalk_restrict (claimFieldStep body) (fun p => readBE4 body p ≠ 0)
      n pos q]

/-- The source op loop reaches `q` exactly when the claim's bounds-only op
walk does and every walked op declares a size of at least
`name_sz + 4`. -/
theorem as_msg_skip_ops_iff (body : List Nat) (n pos q : Nat) :
    as_msg_skip_ops body pos n = some q ↔
      (chainWalk (claimOpStep body) pos n = some q ∧
        ∀ k, k < n → ∀ p, chainEnd (claimOpStep body) pos k = some p →
          byteAt body (p + 7) + 4 ≤ readBE4 body p) := by
  rw [as_msg_skip_ops_eq_restricted,
    chainWalk_restrict (claimOpStep body)
      (fun p => byteAt body (p + 7) + 4 ≤ readBE4 body p) n pos q]

/-- C5 amended: `as_transaction_demarshal_prepare` succeeds exactly when
the body holds the 22-byte sub-header, no field or op (header or declared
extent) runs past the end of the body, no walked field declares size
zero, and no walked op declares a size smaller than `name_sz + 4`;
trailing bytes and field types remain irrelevant (the right-hand side
mentions neither). -/
theorem c5_demarshal_prepare_amended (body : List Nat) :
    as_transaction_demarshal_prepare body = true ↔
      (claimDemarshalParses body = true ∧
        (∀ k, k < readBE2 body 18 → ∀ p,
          chainEnd (claimFieldStep body) 22 k = some p →
            readBE4 body p ≠ 0) ∧
        (∀ q, chainWalk (claimFieldStep body) 22 (readBE2 body 18)
            = some q →
          ∀ k, k < readBE2 body 20 → ∀ p,
            chainEnd (claimOpStep body) q k = some p →
              byteAt body (p + 7) + 4 ≤ readBE4 body p)) := by
  by_cases hlen : body.length < 22
  · constructor
    · intro h
      rw [as_transaction_demarshal_prepare] at h
      simp [hlen] at h
    · rintro ⟨h1, -⟩
      rw [claimDemarshalParses] at h1
      simp [hlen] at h1
  · constructor
    · intro h
      rw [as_transaction_demarshal_prepare] at h
      simp only [hlen, if_false] at h
      cases hF : as_msg_skip_fields body 22 (readBE2 body 18) with
      | none => rw [hF] at h; simp at h
      | some posF =>
        rw [hF] at h
        simp only [Option.isSome_iff_exists] at h
        obtain ⟨r, hO⟩ := h
        obtain ⟨hFb, hFz⟩ := (as_msg_skip_fields_iff body _ _ _).mp hF
        obtain ⟨hOb, hOz⟩ := (as_msg_skip_ops_iff body _ _ _).mp hO
        refine ⟨?_, hFz, ?_⟩
        · rw [claimDemarshalParses]
          simp only [hlen, if_false, hFb]
          simp [hOb]
        · intro q hq
          have hq' : q = posF := by
            rw [hFb] at hq
            exact (Option.some_injective _ hq).symm
          rw [hq']
          exact hOz
    · rintro ⟨h1, h2, h3⟩
      rw [claimDemarshalParses] at h1
      simp only [hlen, if_false] at h1
      cases hFb : chainWalk (claimFieldStep body) 22 (readBE2 body 18) with
      | none => rw [hFb] at h1; simp at h1
      | some posF =>
        rw [hFb] at h1
        simp only [Option.isSome_iff_exists] at h1
        obtain ⟨r, hOb⟩ := h1
        have hF : as_msg_skip_fields body 22 (readBE2 body 18) = some posF :=
          (as_msg_skip_fields_iff body _ _ _).mpr ⟨hFb, h2⟩
        have hO : as_msg_skip_ops body posF (readBE2 body 20) = some r :=
          (as_msg_skip_ops_iff body _ _ _).mpr ⟨hOb, h3 posF hFb⟩
        rw [as_transaction_demarshal_prepare]
        simp only [hlen, if_false, hF]
        simp [hO]

/-- C5 witness: a minimal 22-byte body with no fields and no ops parses,
via the amended characterization. -/
theorem c5_demarshal_prepare_amended_witness :
    as_transaction_demarshal_prepare
      [22, 0, 0, 0, 0, 0, 0, 0, 0, 0, 0, 0, 0, 0, 0, 0, 0, 0, 0, 0, 0, 0]
      = true := by
  refine (c5_demarshal_prepare_amended _).mpr ⟨by decide, ?_, ?_⟩
  · intro k hk
    exact absurd hk (by simp [readBE2, byteAt])
  · intro q hq k hk
    exact absurd hk (by simp [readBE2, byteAt])
